import Mathlib

set_option maxHeartbeats 1000000

/-!
Verification development for the `GeminiAutopaint` command
(`src/app/commands/cmd_gemini_autopaint.cpp`).

The command opens a chat window; on send it captures the active document as a
PNG, base64-encodes it, builds a Gemini request on a worker thread, and then
normalizes the JSON reply, extracts a fenced Lua block and executes it.  Each
C++ function used by the claims is embedded below as an executable Lean
definition over `List Char` / `List Nat`, translated line by line from the
source; effectful methods are embedded as the ordered list of the externally
visible events they perform.
-/

namespace GeminiAutopaint

/-- `std::string::find(sub)` over char lists: the index of the first
occurrence of `sub` as a contiguous substring, or `none` (C++ `npos`). -/
def findSub (sub : List Char) : List Char → Option Nat
  | [] => if sub.isPrefixOf ([] : List Char) then some 0 else none
  | a :: t => if sub.isPrefixOf (a :: t) then some 0 else (findSub sub t).map (· + 1)

/-- The generic code fence `"```"` searched for at lines 400, 405 and 408. -/
def fence : List Char := "```".toList

/-- The Lua-tagged fence opener `"```lua"` searched for at line 397. -/
def fenceLua : List Char := "```lua".toList

/-- Lua extraction from `GeminiChatWindow::handleResponse`, lines 396-413.
`text.find("```lua")` is probed first; on a hit the body runs from 6 past the
opener up to the next `"```"` (C++ `substr(start, end - start)`, which equals
`take (end - start) (drop start text)`; `findSub` on `text.drop s` returns the
offset of the closing fence relative to `s`).  Only when `"```lua"` does not
occur at all is the untagged `"```"` fence probed.  Any branch that finds an
opener but no closer leaves `luaCode` empty. -/
def extractLua (text : List Char) : List Char :=
  match findSub fenceLua text with
  | some s0 =>
    match findSub fence (text.drop (s0 + 6)) with
    | some e => (text.drop (s0 + 6)).take e
    | none => []
  | none =>
    match findSub fence text with
    | some s0 =>
      match findSub fence (text.drop (s0 + 3)) with
      | some e => (text.drop (s0 + 3)).take e
      | none => []
    | none => []

lemma isPrefixOf_of_append_isPrefixOf (p q l : List Char)
    (h : (p ++ q).isPrefixOf l = true) : p.isPrefixOf l = true := by
  rw [List.isPrefixOf_iff_prefix] at h ⊢
  exact (List.prefix_append p q).trans h

lemma findSub_fenceLua_none (l : List Char) (h : findSub fence l = none) :
    findSub fenceLua l = none := by
  induction l with
  | nil => rfl
  | cons a t ih =>
    rw [findSub] at h ⊢
    by_cases hp : fence.isPrefixOf (a :: t) = true
    · simp [hp] at h
    · rw [if_neg hp] at h
      have hp6 : fenceLua.isPrefixOf (a :: t) = false := by
        rw [Bool.eq_false_iff]
        intro h6
        exact hp (isPrefixOf_of_append_isPrefixOf fence ("lua".toList) (a :: t)
          (by simpa [fence, fenceLua] using h6))
      rw [if_neg (by simp [hp6])]
      rw [Option.map_eq_none'] at h ⊢
      exact ih h

/-- The json11 value model: the subset of `json11::Json` the command uses.
Objects are association lists with unique keys (json11 stores a
`std::map<std::string, Json>`). -/
inductive Json
  | null
  | str (s : String)
  | num (n : Int)
  | boolean (b : Bool)
  | arr (items : List Json)
  | obj (fields : List (String × Json))

/-- json11 `operator[](const std::string&)`: member of an object, or the
static null for a missing key or a non-object. -/
def Json.find : Json → String → Json
  | .obj fs, k => (((fs.find? (fun p => p.1 == k)).map Prod.snd).getD .null)
  | _, _ => .null

/-- json11 `operator[](size_t)`: array element, or the static null when out of
range or not an array. -/
def Json.idx : Json → Nat → Json
  | .arr xs, i => xs.getD i .null
  | _, _ => .null

/-- json11 `string_value()`: the string payload, or `""` for non-strings. -/
def Json.string_value : Json → String
  | .str s => s
  | _ => ""

/-- json11 `array_items()`: the element list, or `[]` for non-arrays. -/
def Json.array_items : Json → List Json
  | .arr xs => xs
  | _ => []

/-- json11 `is_null()`. -/
def Json.is_null : Json → Bool
  | .null => true
  | _ => false

/-- The text read at line 393:
`json["candidates"][0]["content"]["parts"][0]["text"].string_value()`. -/
def candidateText (j : Json) : String :=
  ((((((j.find "candidates").idx 0).find "content").find "parts").idx 0).find "text").string_value

/-- Normalization stage of `GeminiChatWindow::handleResponse` (lines 375-393).
The json11 parse itself is external; its result is passed in as `Option Json`,
`none` standing for a parse error (non-empty `err` at line 378).  The error
strings are the status-label texts the code writes (minus the `"System: "`
role prefix added by the caller). -/
def normalize (parsed : Option Json) : Except String String :=
  match parsed with
  | none => .error "JSON Parse Error"
  | some j =>
    if (j.find "error").is_null = false then
      .error ("API Error: " ++ ((j.find "error").find "message").string_value)
    else if (j.find "candidates").array_items.isEmpty then
      .error "No candidates."
    else
      .ok (candidateText j)

/-- Outcome of one `handleResponse` call: an error status text, execution of an
extracted Lua block, or a 100-character preview of a reply without code. -/
inductive HandleOutcome
  | errorMsg (statusText : String)
  | executed (luaCode : List Char)
  | preview (previewText : List Char)
deriving DecidableEq

/-- Full `GeminiChatWindow::handleResponse` (lines 375-448): normalization,
then Lua extraction, then either `engine.evalCode` on a non-empty block or the
`text.substr(0, 100) + "..."` preview message (line 446). -/
def handleResponse (parsed : Option Json) : HandleOutcome :=
  match normalize parsed with
  | .error e => .errorMsg e
  | .ok t =>
    let lua := extractLua t.toList
    if lua = [] then .preview (t.toList.take 100 ++ "...".toList) else .executed lua

/-- Canonical candidate-shaped reply body with
`candidates[0].content.parts[0].text = y`. -/
def mkCandidateBody (y : String) : Json :=
  .obj [("candidates", .arr [.obj [("content", .obj [("parts",
    .arr [.obj [("text", .str y)]])])]])]

/-- Canonical chat-completion-shaped reply body with
`choices[0].message.content = x`. -/
def mkChoicesBody (x : String) : Json :=
  .obj [("choices", .arr [.obj [("message", .obj [("content", .str x)])]])]

/-- Reply body with a top-level error object carrying message `m`. -/
def mkErrorBody (m : String) : Json :=
  .obj [("error", .obj [("message", .str m)])]

/-- Case-insensitive substring test (the spec's soft-failure scan). -/
def insContains (text pat : List Char) : Bool :=
  (findSub (pat.map Char.toLower) (text.map Char.toLower)).isSome

/-- A reply text containing "rate limit" alongside a valid fenced Lua block. -/
def rlText : String := "Hit the rate limit, see ```lua\nx=1\n``` now"

/-- Text with an untagged fenced block followed by a Lua-tagged block. -/
def twoBlockText : List Char := "A ```\nfoo\n``` B ```lua\nbar\n``` C".toList

/-- Text with a complete untagged fenced block and a later unclosed
Lua-tagged opener. -/
def unclosedText : List Char := "```\nfoo\n```\nsee ```lua\nbar".toList

/-- C1 counterexample: a reply body whose candidate text contains the
substring "rate limit" (case-insensitively) and is otherwise valid is NOT
classified as a soft failure: `handleResponse` normalizes it successfully and
goes on to execute the embedded Lua block.  No quota/overload/rate-limit scan
of the raw body exists anywhere in `handleResponse`. -/
theorem rateLimitSoftFailure_cex :
    insContains rlText.toList ("rate limit".toList) = true
    ∧ normalize (some (mkCandidateBody rlText)) = Except.ok rlText
    ∧ handleResponse (some (mkCandidateBody rlText))
        = HandleOutcome.executed ("\nx=1\n".toList) := by
  refine ⟨by decide, rfl, by decide⟩

/-- C1 (amended): `handleResponse` applies no soft-failure heuristic to the
body: every parsed body with a null `error` member and a non-empty
`candidates` list is normalized to its candidate text and treated as a
success, even when that text contains "rate limit" (case-insensitively). -/
theorem rateLimitBodyStillSucceeds (j : Json)
    (h1 : (j.find "error").is_null = true)
    (h2 : (j.find "candidates").array_items.isEmpty = false)
    (_h3 : insContains (candidateText j).toList ("rate limit".toList) = true) :
    normalize (some j) = Except.ok (candidateText j) := by
  simp [normalize, h1, h2]

/-- C1 witness: the amended theorem applied to the concrete rate-limit body. -/
theorem rateLimitBodyStillSucceeds_witness :
    normalize (some (mkCandidateBody rlText)) = Except.ok (candidateText (mkCandidateBody rlText)) :=
  rateLimitBodyStillSucceeds (mkCandidateBody rlText) rfl rfl (by decide)

/-- C2 counterexample: a chat-completion-shaped body with
`choices[0].message.content = "X"` does not normalize to `"X"`: the code never
probes the `choices` shape and fails with "No candidates.". -/
theorem normalizeChoicesShape_cex :
    normalize (some (mkChoicesBody "X")) ≠ Except.ok "X"
    ∧ normalize (some (mkChoicesBody "X")) = Except.error "No candidates." := by
  have h : normalize (some (mkChoicesBody "X")) = Except.error "No candidates." := rfl
  exact ⟨by rw [h]; exact fun hc => Except.noConfusion hc, h⟩

/-- C2 (amended): normalization parses (a parse failure is a format error),
surfaces a top-level error object's message, and then probes ONLY the
candidate-list shape `candidates[0].content.parts[0].text`: an empty (or
missing) `candidates` list is the error "No candidates.", a canonical
candidate-shaped body with text `y` normalizes to exactly `y`, and a
chat-completion-shaped body is rejected rather than probed. -/
theorem normalizeCandidatesOnly :
    normalize none = Except.error "JSON Parse Error"
    ∧ (∀ j : Json, (j.find "error").is_null = false →
        normalize (some j)
          = Except.error ("API Error: " ++ ((j.find "error").find "message").string_value))
    ∧ (∀ j : Json, (j.find "error").is_null = true →
        (j.find "candidates").array_items.isEmpty = true →
        normalize (some j) = Except.error "No candidates.")
    ∧ (∀ y : String, normalize (some (mkCandidateBody y)) = Except.ok y)
    ∧ (∀ x : String, normalize (some (mkChoicesBody x)) = Except.error "No candidates.") := by
  refine ⟨rfl, ?_, ?_, fun y => rfl, fun x => rfl⟩
  · intro j h1
    simp [normalize, h1]
  · intro j h1 h2
    simp [normalize, h1, h2]

/-- C2 witness: the error-object branch of the amended theorem at a concrete
body. -/
theorem normalizeCandidatesOnly_witness :
    normalize (some (mkErrorBody "bad key")) = Except.error ("API Error: " ++ "bad key") :=
  normalizeCandidatesOnly.2.1 (mkErrorBody "bad key") rfl

/-- C3: code extraction returns the body, without the fence markers, of the
first `"```lua"`-tagged block when a closing fence follows; with no tagged
opener it falls back to the first fenced block of any kind; text with no fence
at all yields the empty (Absent) result and `handleResponse` surfaces the text
as a preview instead of executing anything; and on text with an untagged and a
Lua-tagged block the tagged one's body is returned verbatim. -/
theorem codeExtractionSpec :
    (∀ text : List Char, findSub fence text = none → extractLua text = [])
    ∧ (∀ text s0 e, findSub fenceLua text = some s0 →
        findSub fence (text.drop (s0 + 6)) = some e →
        extractLua text = (text.drop (s0 + 6)).take e)
    ∧ (∀ text s0 e, findSub fenceLua text = none → findSub fence text = some s0 →
        findSub fence (text.drop (s0 + 3)) = some e →
        extractLua text = (text.drop (s0 + 3)).take e)
    ∧ extractLua twoBlockText = "\nbar\n".toList
    ∧ extractLua ("just a chatty answer".toList) = []
    ∧ (∀ y : String, extractLua y.toList = [] →
        handleResponse (some (mkCandidateBody y))
          = HandleOutcome.preview (y.toList.take 100 ++ "...".toList)) := by
  refine ⟨?_, ?_, ?_, by decide, by decide, ?_⟩
  · intro text h
    simp [extractLua, findSub_fenceLua_none text h, h]
  · intro text s0 e h1 h2
    simp [extractLua, h1, h2]
  · intro text s0 e h1 h2 h3
    simp [extractLua, h1, h2, h3]
  · intro y hy
    have hn : normalize (some (mkCandidateBody y)) = Except.ok y := rfl
    rw [handleResponse.eq_def, hn]
    simp [String.toList] at hy
    simp [hy]

/-- C3 witness: the no-fence branch of the extraction theorem at concrete
unfenced text. -/
theorem codeExtractionSpec_witness : extractLua ("local x = 1 plain code".toList) = [] :=
  codeExtractionSpec.1 ("local x = 1 plain code".toList) (by decide)

/-- C10: when a `"```lua"` opener has no subsequent closing fence the
extraction result is empty (Absent) and the untagged fallback branch is never
consulted: on the concrete text a complete untagged block (opener at index 0,
closer 5 characters into its body) is present, yet extraction yields []. -/
theorem unclosedLuaFenceAbsent :
    (∀ text s0, findSub fenceLua text = some s0 →
        findSub fence (text.drop (s0 + 6)) = none → extractLua text = [])
    ∧ findSub fenceLua unclosedText = some 16
    ∧ findSub fence unclosedText = some 0
    ∧ findSub fence (unclosedText.drop 3) = some 5
    ∧ extractLua unclosedText = [] := by
  refine ⟨?_, by decide, by decide, by decide, by decide⟩
  intro text s0 h1 h2
  simp [extractLua, h1, h2]

/-- C10 witness: the general unclosed-opener branch applied to the concrete
text with a complete untagged block elsewhere. -/
theorem unclosedLuaFenceAbsent_witness : extractLua unclosedText = [] :=
  unclosedLuaFenceAbsent.1 unclosedText 16 (by decide) (by decide)

/-- The literal `"GEMINI_API_KEY="` matched at line 38; `line.find(p) == 0` is
exactly a prefix test, and `line.substr(15)` drops its 15 characters. -/
def keyMark : List Char := "GEMINI_API_KEY=".toList

/-- The `.env`-file scan of `get_gemini_key` (lines 35-42): lines are read in
order; the first line starting with `"GEMINI_API_KEY="` yields the rest of
that line and the remaining lines are never read; otherwise the result is the
empty string. -/
def scanEnvFile : List (List Char) → List Char
  | [] => []
  | l :: ls => if keyMark.isPrefixOf l then l.drop 15 else scanEnvFile ls

/-- `get_gemini_key` (lines 31-43).  `envVar` is the `std::getenv`
observation: `some v` when the process environment defines `GEMINI_API_KEY`
(possibly as the empty string), `none` when it is undefined; `envFile` is the
line list of the local `.env` file (empty when the file does not open). -/
def get_gemini_key (envVar : Option (List Char)) (envFile : List (List Char)) : List Char :=
  match envVar with
  | some v => v
  | none => scanEnvFile envFile

/-- Modelled from the spec: the CredentialResolver source chain of spec §4.1,
which puts "an in-memory override set earlier in the process lifetime" ahead
of the environment variable and the configuration file.  No such override
source exists in the source code (`get_gemini_key` reads only `getenv` and
`.env`); this definition exists to compare the spec's chain with the code. -/
def resolveSpecChain (override envVar : Option (List Char))
    (envFile : List (List Char)) : List Char :=
  match override with
  | some v => v
  | none => get_gemini_key envVar envFile

/-- C4 counterexample: the claimed three-source chain is not the code's.  With
an in-memory override set to "OVR" and the environment variable set to "ENV",
the spec's chain resolves to the override, but `get_gemini_key` — which has no
override source at all — returns the environment value on the same
environment and file state. -/
theorem credentialOverride_cex :
    resolveSpecChain (some ("OVR".toList)) (some ("ENV".toList)) [] = "OVR".toList
    ∧ get_gemini_key (some ("ENV".toList)) [] = "ENV".toList
    ∧ resolveSpecChain (some ("OVR".toList)) (some ("ENV".toList)) []
        ≠ get_gemini_key (some ("ENV".toList)) [] := by
  refine ⟨rfl, rfl, by decide⟩

/-- C4 (amended): credential resolution consults, in order, only (1) the
process environment variable and (2) the local configuration file, scanned
line by line for a `GEMINI_API_KEY=value` prefix match where the first
matching line wins and the rest of the file is ignored; there is no in-memory
override source.  When no source yields a value the result is the empty
string, not an error. -/
lemma scanEnvFile_first_match (pre : List (List Char)) (l : List Char)
    (post : List (List Char)) (hpre : ∀ p ∈ pre, keyMark.isPrefixOf p = false)
    (hl : keyMark.isPrefixOf l = true) :
    scanEnvFile (pre ++ l :: post) = l.drop 15 := by
  induction pre with
  | nil => simp [scanEnvFile, hl]
  | cons p ps ih =>
    have hp : keyMark.isPrefixOf p = false := hpre p (by simp)
    simp only [List.cons_append, scanEnvFile, hp, Bool.false_eq_true, if_false]
    exact ih (fun q hq => hpre q (by simp [hq]))

lemma scanEnvFile_no_match (file : List (List Char))
    (hall : ∀ p ∈ file, keyMark.isPrefixOf p = false) :
    scanEnvFile file = [] := by
  induction file with
  | nil => rfl
  | cons p ps ih =>
    have hp : keyMark.isPrefixOf p = false := hall p (by simp)
    simp only [scanEnvFile, hp, Bool.false_eq_true, if_false]
    exact ih (fun q hq => hall q (by simp [hq]))

theorem credentialResolutionChain (envVar : Option (List Char))
    (file : List (List Char)) :
    (∀ v, envVar = some v → get_gemini_key envVar file = v)
    ∧ (envVar = none →
        (∀ pre l post, file = pre ++ l :: post →
          (∀ p ∈ pre, keyMark.isPrefixOf p = false) →
          keyMark.isPrefixOf l = true →
          get_gemini_key envVar file = l.drop 15)
        ∧ ((∀ p ∈ file, keyMark.isPrefixOf p = false) →
            get_gemini_key envVar file = [])) := by
  constructor
  · intro v hv
    rw [hv]
    rfl
  · intro he
    rw [he]
    constructor
    · intro pre l post hf hpre hl
      rw [hf]
      exact scanEnvFile_first_match pre l post hpre hl
    · intro hall
      exact scanEnvFile_no_match file hall

/-- C4 witness: the amended chain at a concrete file whose second line is the
first match; the value after the `=` is returned and the later matching line
is ignored. -/
theorem credentialResolutionChain_witness :
    get_gemini_key none
      ["# comment".toList, "GEMINI_API_KEY=abc".toList, "GEMINI_API_KEY=zzz".toList]
      = ("GEMINI_API_KEY=abc".toList).drop 15 :=
  (credentialResolutionChain none
      ["# comment".toList, "GEMINI_API_KEY=abc".toList, "GEMINI_API_KEY=zzz".toList]).2
    rfl |>.1 ["# comment".toList] ("GEMINI_API_KEY=abc".toList)
      ["GEMINI_API_KEY=zzz".toList] rfl (by decide) (by decide)

/-- Externally visible events of `GeminiChatWindow::processRequestWorker`
(lines 288-373), in program order: an observation of `m_abort`, the
construction of the request payload (prompt + JSON body, lines 291-345), the
`get_gemini_key()` call, the blocking `req.send(resp)` transport call, and the
writes to the shared `m_response` / `m_error` / `m_done` buffers. -/
inductive WEv
  | checkAbort (observed : Bool)
  | buildRequest
  | resolveKey (key : List Char)
  | transportSend
  | writeResponse
  | writeError (msg : List Char)
  | writeDone
deriving DecidableEq

/-- The error text written at line 349. -/
def apiKeyMissingMsg : List Char := "API Key not found in .env or environment".toList

/-- The error text written at line 369. -/
def networkErrorMsg : List Char := "Network Error".toList

/-- Event trace of `processRequestWorker` (lines 288-373).  `oracle n` is the
value the n-th read of the atomic `m_abort` flag observes (reads at lines 289,
343, 364, 367/369 and 372 in order); `key` is the `get_gemini_key()` result;
`sendOk` is the `req.send(resp)` result.  An observed `true` at lines 289, 343
or 364 returns immediately; the final buffer writes at lines 367, 369 and 372
are each individually guarded by `!m_abort`. -/
def processRequestWorker (oracle : Nat → Bool) (key : List Char) (sendOk : Bool) :
    List WEv :=
  if oracle 0 then [.checkAbort true] else
  .checkAbort false :: .buildRequest ::
  (if oracle 1 then [.checkAbort true] else
   .checkAbort false :: .resolveKey key ::
   (if key = [] then [.writeError apiKeyMissingMsg, .writeDone] else
    (if oracle 2 then [.checkAbort true] else
     .checkAbort false :: .transportSend ::
     ((if sendOk then
        (if oracle 3 then [.checkAbort true] else [.checkAbort false, .writeResponse])
       else
        (if oracle 3 then [.checkAbort true]
         else [.checkAbort false, .writeError networkErrorMsg])) ++
      (if oracle 4 then [.checkAbort true] else [.checkAbort false, .writeDone])))))

/-- Events that neither invoke the transport nor write shared state. -/
def quietEv : WEv → Bool
  | .transportSend => false
  | .writeResponse => false
  | .writeError _ => false
  | .writeDone => false
  | _ => true

/-- A trace respects cancellation when everything after any observation of the
abort flag as `true` is quiet: no transport call and no write of the response,
error or completion buffers. -/
def cancelRespected : List WEv → Bool
  | [] => true
  | e :: rest =>
    (match e with
     | .checkAbort true => rest.all quietEv
     | _ => true) && cancelRespected rest

/-- C6: with a monotone abort flag (once set, never cleared — the only writer
is the destructor's single `m_abort = true`), (a) a cancellation observed
before any work means the worker performs nothing at all — in particular zero
transport invocations and zero writes — and (b) in every trace, once the
worker observes the flag as set, no transport call and no write of its
response, error or completion state follows. -/
theorem workerCancellation (oracle : Nat → Bool) (key : List Char) (sendOk : Bool)
    (hmono : ∀ i j, i ≤ j → oracle i = true → oracle j = true) :
    (oracle 0 = true → processRequestWorker oracle key sendOk = [WEv.checkAbort true])
    ∧ cancelRespected (processRequestWorker oracle key sendOk) = true := by
  constructor
  · intro h0
    simp [processRequestWorker, h0]
  · unfold processRequestWorker
    cases h0 : oracle 0 with
    | true => simp [cancelRespected]
    | false =>
      cases h1 : oracle 1 with
      | true => simp [h1, cancelRespected, quietEv]
      | false =>
        by_cases hk : key = []
        · simp [h1, hk, cancelRespected, quietEv]
        · cases h2 : oracle 2 with
          | true => simp [h1, hk, h2, cancelRespected, quietEv]
          | false =>
            cases h3 : oracle 3 with
            | true =>
              have h4 : oracle 4 = true := hmono 3 4 (by omega) h3
              cases sendOk <;> simp [h1, hk, h2, h3, h4, cancelRespected, quietEv]
            | false =>
              cases h4 : oracle 4 <;> cases sendOk <;>
                simp [h1, hk, h2, h3, h4, cancelRespected, quietEv]

/-- C6 witness: the cancellation theorem at the all-set flag. -/
theorem workerCancellation_witness :
    processRequestWorker (fun _ => true) [] true = [WEv.checkAbort true]
    ∧ cancelRespected (processRequestWorker (fun _ => true) [] true) = true := by
  have h := workerCancellation (fun _ => true) [] true (fun _ _ _ hv => hv)
  exact ⟨h.1 rfl, h.2⟩

/-- C5 counterexample: in the run where the credential resolves empty (and no
cancellation occurs), the request payload IS built — `buildRequest` precedes
the key lookup in the trace — so the claimed short-circuit past request
building is false; the transport is indeed never invoked, and the run records
the error "API Key not found in .env or environment" rather than a "no
backend configured" message. -/
theorem unconfiguredShortCircuit_cex :
    WEv.buildRequest ∈ processRequestWorker (fun _ => false) [] true
    ∧ WEv.transportSend ∉ processRequestWorker (fun _ => false) [] true
    ∧ WEv.writeError apiKeyMissingMsg ∈ processRequestWorker (fun _ => false) [] true := by
  refine ⟨by decide, by decide, by decide⟩

/-- C5 (amended): when the credential lookup yields the empty string the
worker never invokes the transport and terminates the run with the error
"API Key not found in .env or environment" and the completion flag set — but
the request payload is built before the credential is even looked up, so the
short-circuit skips only the HTTP request, not request building. -/
theorem unconfiguredNoTransport (oracle : Nat → Bool) (sendOk : Bool)
    (h0 : oracle 0 = false) (h1 : oracle 1 = false) :
    processRequestWorker oracle [] sendOk
      = [WEv.checkAbort false, WEv.buildRequest, WEv.checkAbort false,
         WEv.resolveKey [], WEv.writeError apiKeyMissingMsg, WEv.writeDone]
    ∧ WEv.transportSend ∉ processRequestWorker oracle [] sendOk := by
  have he : processRequestWorker oracle [] sendOk
      = [WEv.checkAbort false, WEv.buildRequest, WEv.checkAbort false,
         WEv.resolveKey [], WEv.writeError apiKeyMissingMsg, WEv.writeDone] := by
    simp [processRequestWorker, h0, h1]
  exact ⟨he, by rw [he]; decide⟩

/-- C5 witness: the amended theorem at the never-cancelled oracle. -/
theorem unconfiguredNoTransport_witness :
    processRequestWorker (fun _ => false) [] true
      = [WEv.checkAbort false, WEv.buildRequest, WEv.checkAbort false,
         WEv.resolveKey [], WEv.writeError apiKeyMissingMsg, WEv.writeDone] :=
  (unconfiguredNoTransport (fun _ => false) true rfl rfl).1

/-- Externally visible events of the control path's worker management:
setting the `m_abort` flag (the cancellation request), the blocking
`m_worker.join()`, starting a new worker thread, starting the poll timer, the
destructor's bounded 500 ms wait on an async join, detaching the worker, and
deleting the timer. -/
inductive UiEv
  | setAbort
  | joinWorker
  | startWorker
  | startTimer
  | waitBounded (timedOut : Bool)
  | detachWorker
  | deleteTimer
deriving DecidableEq

/-- Worker-management portion of `GeminiChatWindow::onSend` (lines 226-231):
join any still-joinable prior worker, then start the new one and the timer.
No other `onSend` statement touches `m_abort` or the worker. -/
def onSendWorkerStart (joinable : Bool) : List UiEv :=
  (if joinable then [UiEv.joinWorker] else []) ++ [UiEv.startWorker, UiEv.startTimer]

/-- `GeminiChatWindow::~GeminiChatWindow` (lines 151-163): set `m_abort`,
then, if the worker is joinable, wait up to 500 ms on an async join —
detaching the worker (abandoning it, never force-terminating it) when the
wait times out — and finally delete the timer. -/
def dtorEvents (joinable timedOut : Bool) : List UiEv :=
  UiEv.setAbort ::
    ((if joinable then
        (if timedOut then [UiEv.waitBounded true, UiEv.detachWorker]
         else [UiEv.waitBounded false])
      else []) ++ [UiEv.deleteTimer])

/-- C7 counterexample: starting a new run does NOT first request cancellation
of a still-active run — `onSend` joins the still-joinable prior worker
without ever setting `m_abort`, so the claimed cancel-then-wait protocol is
false for run start. -/
theorem onSendNoCancelRequest_cex :
    UiEv.setAbort ∉ onSendWorkerStart true
    ∧ onSendWorkerStart true = [UiEv.joinWorker, UiEv.startWorker, UiEv.startTimer] := by
  refine ⟨by decide, by decide⟩

/-- C7 (amended): at most one run is active at a time — starting a new run
first waits (a blocking join) for any still-active run's completion before
the new one begins, but without requesting its cancellation; at teardown the
owner requests cancellation first, then waits a bounded grace period for a
joinable worker, and when the grace period elapses the worker is detached
(abandoned), never force-terminated; a worker whose every abort observation
reads `true` performs no transport call and no write at all, so the abandoned
run's eventual result is discarded and never touches the departed owner's
state. -/
theorem runLifecycle :
    (∀ joinable, UiEv.setAbort ∉ onSendWorkerStart joinable)
    ∧ onSendWorkerStart true = [UiEv.joinWorker, UiEv.startWorker, UiEv.startTimer]
    ∧ (∀ joinable timedOut, (dtorEvents joinable timedOut).head? = some UiEv.setAbort)
    ∧ dtorEvents true true
        = [UiEv.setAbort, UiEv.waitBounded true, UiEv.detachWorker, UiEv.deleteTimer]
    ∧ dtorEvents true false = [UiEv.setAbort, UiEv.waitBounded false, UiEv.deleteTimer]
    ∧ dtorEvents false false = [UiEv.setAbort, UiEv.deleteTimer]
    ∧ (∀ key sendOk, processRequestWorker (fun _ => true) key sendOk
        = [WEv.checkAbort true]) := by
  refine ⟨?_, by decide, ?_, by decide, by decide, by decide, ?_⟩
  · intro joinable
    cases joinable <;> decide
  · intro joinable timedOut
    cases joinable <;> cases timedOut <;> decide
  · intro key sendOk
    simp [processRequestWorker]

/-- The base64 alphabet `base64_chars` (lines 51-54). -/
def base64_chars : List Char :=
  "ABCDEFGHIJKLMNOPQRSTUVWXYZabcdefghijklmnopqrstuvwxyz0123456789+/".toList

/-- Indexing into `base64_chars` (every index produced below is < 64). -/
def b64c (i : Nat) : Char := base64_chars.getD i '?'

/-- `base64_encode` (lines 56-94) over byte lists.  The loop consumes three
bytes at a time, emitting the four sextets computed at lines 66-69 with the
same masks and shifts; the tail (lines 77-91) zero-pads the missing bytes,
emits `i + 1` characters and then appends `'='` until three input bytes are
accounted for: two `'='` for one leftover byte, one for two. -/
def base64_encode : List Nat → List Char
  | [] => []
  | [b0] =>
      [b64c ((b0 &&& 0xfc) >>> 2),
       b64c ((b0 &&& 0x03) <<< 4),
       '=', '=']
  | [b0, b1] =>
      [b64c ((b0 &&& 0xfc) >>> 2),
       b64c (((b0 &&& 0x03) <<< 4) + ((b1 &&& 0xf0) >>> 4)),
       b64c ((b1 &&& 0x0f) <<< 2),
       '=']
  | b0 :: b1 :: b2 :: rest =>
      [b64c ((b0 &&& 0xfc) >>> 2),
       b64c (((b0 &&& 0x03) <<< 4) + ((b1 &&& 0xf0) >>> 4)),
       b64c (((b1 &&& 0x0f) <<< 2) + ((b2 &&& 0xc0) >>> 6)),
       b64c (b2 &&& 0x3f)] ++ base64_encode rest

/-- Active-document state as `captureImage` observes it: the only field the
function touches is the filename. -/
structure DocState where
  filename : List Char

/-- The temporary snapshot path used at line 253. -/
def tempFile : List Char := "gemini_temp.png".toList

/-- `GeminiChatWindow::captureImage` (lines 252-267): with no active document
the result is the empty string; otherwise the filename is saved, swapped to
`tempFile` for the external `app::save_document` call (whose result is
`saveRes` and whose encoded bytes are `fileBytes`), restored, and only then is
the save result checked.  Returns the final document state plus the returned
base64 string. -/
def captureImage (doc : Option DocState) (saveRes : Int) (fileBytes : List Nat) :
    Option DocState × List Char :=
  match doc with
  | none => (none, [])
  | some d =>
    let oldFn := d.filename
    let d1 : DocState := { d with filename := tempFile }
    let d2 : DocState := { d1 with filename := oldFn }
    if saveRes ≠ 0 then (some d2, [])
    else (some d2, base64_encode fileBytes)

/-- C9: `captureImage` preserves the active document's filename: whatever the
save result, the document's filename after the call is exactly its value
before the call (the restore at line 260 precedes the early return at line
262). -/
theorem captureImagePreservesFilename (doc : Option DocState) (saveRes : Int)
    (fileBytes : List Nat) :
    (captureImage doc saveRes fileBytes).1.map DocState.filename
      = doc.map DocState.filename := by
  match doc with
  | none => rfl
  | some d =>
    simp only [captureImage]
    by_cases h : saveRes ≠ 0 <;> simp [h]

/-- Index of a character in the base64 alphabet: the decoding table. -/
def b64d (c : Char) : Nat := base64_chars.indexOf c

/-- RFC 4648 base64 decoder, the inverse used to state the round-trip: four
characters at a time, `"=="` marking one final byte and `"="` marking two. -/
def base64_decode : List Char → List Nat
  | c0 :: c1 :: c2 :: c3 :: rest =>
    if c2 = '=' then [(b64d c0 <<< 2) + (b64d c1 >>> 4)]
    else if c3 = '=' then
      [(b64d c0 <<< 2) + (b64d c1 >>> 4),
       ((b64d c1 &&& 0xf) <<< 4) + (b64d c2 >>> 2)]
    else
      [(b64d c0 <<< 2) + (b64d c1 >>> 4),
       ((b64d c1 &&& 0xf) <<< 4) + (b64d c2 >>> 2),
       ((b64d c2 &&& 0x3) <<< 6) + b64d c3] ++ base64_decode rest
  | _ => []

set_option maxRecDepth 4000 in
lemma mask_fc : ∀ b < 256, (b &&& 0xfc) >>> 2 = b / 4 := by decide

set_option maxRecDepth 4000 in
lemma mask_03 : ∀ b < 256, (b &&& 0x03) <<< 4 = (b % 4) * 16 := by decide

set_option maxRecDepth 4000 in
lemma mask_f0 : ∀ b < 256, (b &&& 0xf0) >>> 4 = b / 16 := by decide

set_option maxRecDepth 4000 in
lemma mask_0f : ∀ b < 256, (b &&& 0x0f) <<< 2 = (b % 16) * 4 := by decide

set_option maxRecDepth 4000 in
lemma mask_c0 : ∀ b < 256, (b &&& 0xc0) >>> 6 = b / 64 := by decide

set_option maxRecDepth 4000 in
lemma mask_3f : ∀ b < 256, b &&& 0x3f = b % 64 := by decide

lemma and_0xf : ∀ s < 64, s &&& 0xf = s % 16 := by decide

lemma and_0x3 : ∀ s < 64, s &&& 0x3 = s % 4 := by decide

lemma b64d_b64c : ∀ i < 64, b64d (b64c i) = i := by decide

lemma b64c_ne_pad : ∀ i < 64, b64c i ≠ '=' := by decide

lemma b64c_mem : ∀ i < 64, b64c i ∈ base64_chars := by decide

lemma sx0_lt (a : Nat) : (a &&& 0xfc) >>> 2 < 64 := by
  have h : a &&& 0xfc ≤ 0xfc := Nat.and_le_right
  rw [Nat.shiftRight_eq_div_pow]
  norm_num
  omega

lemma sx1_lt (a b : Nat) : ((a &&& 0x03) <<< 4) + ((b &&& 0xf0) >>> 4) < 64 := by
  have h1 : a &&& 0x03 ≤ 0x03 := Nat.and_le_right
  have h2 : b &&& 0xf0 ≤ 0xf0 := Nat.and_le_right
  rw [Nat.shiftLeft_eq, Nat.shiftRight_eq_div_pow]
  norm_num
  omega

lemma sx1a_lt (a : Nat) : (a &&& 0x03) <<< 4 < 64 := by
  have h : a &&& 0x03 ≤ 0x03 := Nat.and_le_right
  rw [Nat.shiftLeft_eq]
  norm_num
  omega

lemma sx2_lt (a b : Nat) : ((a &&& 0x0f) <<< 2) + ((b &&& 0xc0) >>> 6) < 64 := by
  have h1 : a &&& 0x0f ≤ 0x0f := Nat.and_le_right
  have h2 : b &&& 0xc0 ≤ 0xc0 := Nat.and_le_right
  rw [Nat.shiftLeft_eq, Nat.shiftRight_eq_div_pow]
  norm_num
  omega

lemma sx2a_lt (a : Nat) : (a &&& 0x0f) <<< 2 < 64 := by
  have h : a &&& 0x0f ≤ 0x0f := Nat.and_le_right
  rw [Nat.shiftLeft_eq]
  norm_num
  omega

lemma sx3_lt (a : Nat) : a &&& 0x3f < 64 := by
  have h : a &&& 0x3f ≤ 0x3f := Nat.and_le_right
  omega

lemma b64_length : (l : List Nat) →
    (base64_encode l).length = 4 * ((l.length + 2) / 3)
  | [] => rfl
  | [_] => by norm_num [base64_encode]
  | [_, _] => by norm_num [base64_encode]
  | _ :: _ :: _ :: rest => by
      rw [base64_encode]
      simp only [List.length_append, List.length_cons, List.length_nil]
      rw [b64_length rest]
      omega

/-- Padding of an RFC 4648 encoding as a function of `n % 3`. -/
def b64pad : Nat → List Char
  | 1 => ['=', '=']
  | 2 => ['=']
  | _ => []

lemma b64_shape : (l : List Nat) →
    ∃ body, base64_encode l = body ++ b64pad (l.length % 3)
      ∧ ∀ c ∈ body, c ∈ base64_chars
  | [] => ⟨[], rfl, by simp⟩
  | [b0] => by
      refine ⟨[b64c ((b0 &&& 0xfc) >>> 2), b64c ((b0 &&& 0x03) <<< 4)], rfl, ?_⟩
      intro c hc
      simp only [List.mem_cons, List.not_mem_nil, or_false] at hc
      rcases hc with rfl | rfl
      · exact b64c_mem _ (sx0_lt b0)
      · exact b64c_mem _ (sx1a_lt b0)
  | [b0, b1] => by
      refine ⟨[b64c ((b0 &&& 0xfc) >>> 2),
               b64c (((b0 &&& 0x03) <<< 4) + ((b1 &&& 0xf0) >>> 4)),
               b64c ((b1 &&& 0x0f) <<< 2)], rfl, ?_⟩
      intro c hc
      simp only [List.mem_cons, List.not_mem_nil, or_false] at hc
      rcases hc with rfl | rfl | rfl
      · exact b64c_mem _ (sx0_lt b0)
      · exact b64c_mem _ (sx1_lt b0 b1)
      · exact b64c_mem _ (sx2a_lt b1)
  | b0 :: b1 :: b2 :: rest => by
      obtain ⟨body', hb', hmem'⟩ := b64_shape rest
      refine ⟨[b64c ((b0 &&& 0xfc) >>> 2),
               b64c (((b0 &&& 0x03) <<< 4) + ((b1 &&& 0xf0) >>> 4)),
               b64c (((b1 &&& 0x0f) <<< 2) + ((b2 &&& 0xc0) >>> 6)),
               b64c (b2 &&& 0x3f)] ++ body', ?_, ?_⟩
      · rw [base64_encode, hb', List.append_assoc]
        have hm : (b0 :: b1 :: b2 :: rest).length % 3 = rest.length % 3 := by
          simp only [List.length_cons]
          omega
        rw [hm]
      · intro c hc
        rcases List.mem_append.mp hc with hc4 | hcb
        · simp only [List.mem_cons, List.not_mem_nil, or_false] at hc4
          rcases hc4 with rfl | rfl | rfl | rfl
          · exact b64c_mem _ (sx0_lt b0)
          · exact b64c_mem _ (sx1_lt b0 b1)
          · exact b64c_mem _ (sx2_lt b1 b2)
          · exact b64c_mem _ (sx3_lt b2)
        · exact hmem' c hcb

lemma b64_roundtrip : (l : List Nat) → (∀ b ∈ l, b < 256) →
    base64_decode (base64_encode l) = l
  | [], _ => rfl
  | [b0], h => by
      have hb0 : b0 < 256 := h b0 (by simp)
      rw [base64_encode, mask_fc b0 hb0, mask_03 b0 hb0]
      rw [base64_decode]
      rw [if_pos rfl]
      rw [b64d_b64c (b0 / 4) (by omega), b64d_b64c ((b0 % 4) * 16) (by omega)]
      rw [Nat.shiftLeft_eq, Nat.shiftRight_eq_div_pow]
      norm_num [List.cons.injEq]
      omega
  | [b0, b1], h => by
      have hb0 : b0 < 256 := h b0 (by simp)
      have hb1 : b1 < 256 := h b1 (by simp)
      rw [base64_encode, mask_fc b0 hb0, mask_03 b0 hb0, mask_f0 b1 hb1,
        mask_0f b1 hb1]
      rw [base64_decode]
      rw [if_neg (b64c_ne_pad ((b1 % 16) * 4) (by omega))]
      rw [if_pos rfl]
      rw [b64d_b64c (b0 / 4) (by omega),
        b64d_b64c ((b0 % 4) * 16 + b1 / 16) (by omega),
        b64d_b64c ((b1 % 16) * 4) (by omega)]
      rw [and_0xf ((b0 % 4) * 16 + b1 / 16) (by omega)]
      simp only [Nat.shiftLeft_eq, Nat.shiftRight_eq_div_pow]
      norm_num [List.cons.injEq]
      omega
  | b0 :: b1 :: b2 :: rest, h => by
      have hb0 : b0 < 256 := h b0 (by simp)
      have hb1 : b1 < 256 := h b1 (by simp)
      have hb2 : b2 < 256 := h b2 (by simp)
      have ih := b64_roundtrip rest (fun b hb => h b (by simp [hb]))
      rw [base64_encode, mask_fc b0 hb0, mask_03 b0 hb0, mask_f0 b1 hb1,
        mask_0f b1 hb1, mask_c0 b2 hb2, mask_3f b2 hb2]
      simp only [List.cons_append, List.nil_append]
      rw [base64_decode]
      rw [if_neg (b64c_ne_pad ((b1 % 16) * 4 + b2 / 64) (by omega))]
      rw [if_neg (b64c_ne_pad (b2 % 64) (by omega))]
      rw [b64d_b64c (b0 / 4) (by omega),
        b64d_b64c ((b0 % 4) * 16 + b1 / 16) (by omega),
        b64d_b64c ((b1 % 16) * 4 + b2 / 64) (by omega),
        b64d_b64c (b2 % 64) (by omega)]
      rw [and_0xf ((b0 % 4) * 16 + b1 / 16) (by omega)]
      rw [and_0x3 ((b1 % 16) * 4 + b2 / 64) (by omega)]
      simp only [Nat.shiftLeft_eq, Nat.shiftRight_eq_div_pow]
      norm_num [List.cons_append, List.nil_append, List.cons.injEq]
      refine ⟨by omega, by omega, by omega, ih⟩

/-- C8: `base64_encode` produces the standard RFC 4648 encoding of any byte
sequence: the output length is `4 * ceil(n / 3)`, the output is an
alphabet-only body followed by `"=="`, `"="` or no padding according to
`n % 3 = 1, 2, 0`, and decoding recovers exactly the input bytes. -/
theorem base64EncodeRfc4648 (l : List Nat) (h : ∀ b ∈ l, b < 256) :
    (base64_encode l).length = 4 * ((l.length + 2) / 3)
    ∧ (∃ body, base64_encode l = body ++ b64pad (l.length % 3)
        ∧ ∀ c ∈ body, c ∈ base64_chars)
    ∧ base64_decode (base64_encode l) = l :=
  ⟨b64_length l, b64_shape l, b64_roundtrip l h⟩

/-- C8 witness: the RFC 4648 theorem at the four-byte input 77 97 110 1. -/
theorem base64EncodeRfc4648_witness :
    (base64_encode [77, 97, 110, 1]).length = 4 * (([77, 97, 110, 1].length + 2) / 3)
    ∧ (∃ body, base64_encode [77, 97, 110, 1]
        = body ++ b64pad ([77, 97, 110, 1].length % 3)
        ∧ ∀ c ∈ body, c ∈ base64_chars)
    ∧ base64_decode (base64_encode [77, 97, 110, 1]) = [77, 97, 110, 1] :=
  base64EncodeRfc4648 [77, 97, 110, 1] (by decide)
